import Mathlib

/-!
# Verification of the `cellar` sandbox-launcher core

Shallow embedding of the `cellar` repository's sandbox-translation core:

* `cellar_sandbox/src/lib.rs` — the `EnvVar` model;
* `cellar_sandbox/src/bubblewrap.rs` — the bind-mount/namespace (bubblewrap)
  translator `BubLauncher::command` and its `Default` instance;
* `src/sandbox.rs` — the profile-sandbox (firejail) translator
  `FirejailLauncher::command`;
* `src/sandbox/nsjail.rs` — the syscall-jail (nsjail) translator
  `NSJail::command`, which produces both an argument vector and a generated
  protobuf-text configuration file;
* `src/reaper.rs` — the `ReaperCommand` wire protocol (bincode encoding)
  and the reaper's `main` loop.

Rust `String`/`PathBuf` values are modelled as Lean `String`s where the code
only concatenates and compares them; for the wire protocol, strings are
modelled as their underlying byte sequences (`List Nat`, each byte < 256),
because bincode serializes a Rust `String` as its length-tagged UTF-8 byte
sequence and the protocol is byte-oriented.

Effects are made explicit: the host environment is a lookup function
`String → Option String`; a Rust `panic!`/`expect` is modelled as
`Except.error` carrying the panic message; the file opened with
`truncate(true)` is modelled by threading the file's prior content through
`openTruncate`, which discards it.
-/

namespace Cellar

/-- From `cellar_sandbox/src/lib.rs`: `pub enum EnvVar { Pass(String),
KeyValue(String, String) }`.  The type is parametric in the string
representation so the same shape serves both the launcher model
(`EnvVar String`) and the byte-level wire model (`EnvVar (List Nat)`). -/
inductive EnvVar (α : Type) where
  | Pass : α → EnvVar α
  | KeyValue : α → α → EnvVar α
deriving DecidableEq, Repr

/-- The host process environment, as consulted by `std::env::var`. -/
abbrev HostEnv : Type := String → Option String

/-- From `cellar_sandbox/src/lib.rs`, `EnvVar::to_key_value`: a `Pass(k)`
entry looks `k` up in the process environment and panics with
`"failed to get env var"` (an `.expect`) when absent; `KeyValue(k, v)` is
returned literally.  The panic is modelled as `Except.error` with the
panic message. -/
def EnvVar.to_key_value (henv : HostEnv) : EnvVar String → Except String (String × String)
  | .Pass k =>
      match henv k with
      | some v => .ok (k, v)
      | none => .error "failed to get env var"
  | .KeyValue k v => .ok (k, v)

/-- From `cellar_sandbox/src/bubblewrap.rs`: `pub enum BubMount`. -/
inductive BubMount where
  | DevBind : String → String → BubMount
  | BindRO : String → String → BubMount
  | BindRW : String → String → BubMount
  | Symlink : String → String → BubMount
  | TmpFs : String → BubMount
  | Proc : String → BubMount
  | Dir : String → BubMount
  | File : String → String → BubMount
deriving DecidableEq, Repr

/-- From `cellar_sandbox/src/bubblewrap.rs`, `BubMount::apply_arg`: the
flag group appended to the `bwrap` command line for one mount. -/
def BubMount.apply_arg : BubMount → List String
  | .DevBind src dest => ["--dev-bind", src, dest]
  | .BindRO src dest => ["--ro-bind", src, dest]
  | .BindRW src dest => ["--bind", src, dest]
  | .Symlink src dest => ["--symlink", src, dest]
  | .TmpFs path => ["--tmpfs", path]
  | .Proc path => ["--proc", path]
  | .Dir path => ["--dir", path]
  | .File content path => ["--file", content, path]

/-- From `cellar_sandbox/src/bubblewrap.rs`: `pub struct BubLauncher`. -/
structure BubLauncher where
  mounts : List BubMount
  env : List (EnvVar String)
  inherit_env : Bool
  unshare_user : Bool
  unshare_ipc : Bool
  unshare_pid : Bool
  unshare_net : Bool
  unshare_uts : Bool
  unshare_cgroups : Bool
  as_pid_1 : Bool
  new_session : Bool
  die_with_parent : Bool
  hostname : Option String
  uid : Option Nat
  gid : Option Nat

/-- From `cellar_sandbox/src/bubblewrap.rs`, `BubLauncher::command`: the
argument vector passed to `/usr/bin/bwrap`, built by sequential `cmd.arg`
appends — mounts first (in order), then `--clearenv` when `inherit_env` is
false, then one `--setenv k v` group per resolved `EnvVar` (resolution of a
missing `Pass` variable panics, modelled by `Except.error`), then the
boolean flags in the order the source emits them. -/
def BubLauncher.command (l : BubLauncher) (henv : HostEnv) : Except String (List String) := do
  let cmd : List String := []
  let cmd := l.mounts.foldl (fun c m => c ++ m.apply_arg) cmd
  let cmd := if l.inherit_env then cmd else cmd ++ ["--clearenv"]
  let kvs ← l.env.mapM (EnvVar.to_key_value henv)
  let cmd := kvs.foldl (fun c kv => c ++ ["--setenv", kv.1, kv.2]) cmd
  let cmd := if l.unshare_user then cmd ++ ["--unshare-user"] else cmd
  let cmd := if l.unshare_ipc then cmd ++ ["--unshare-ipc"] else cmd
  let cmd := if l.unshare_pid then cmd ++ ["--unshare-pid"] else cmd
  let cmd := if l.unshare_net then cmd ++ ["--unshare-net"] else cmd
  let cmd := if l.unshare_uts then cmd ++ ["--unshare-uts"] else cmd
  let cmd := if l.unshare_cgroups then cmd ++ ["--unshare-cgroup"] else cmd
  let cmd := if l.as_pid_1 then cmd ++ ["--as-pid-1"] else cmd
  let cmd := if l.new_session then cmd ++ ["--new-session"] else cmd
  let cmd := if l.die_with_parent then cmd ++ ["--die-with-parent"] else cmd
  pure cmd

/-- From `cellar_sandbox/src/bubblewrap.rs`: `impl Default for BubLauncher`. -/
def BubLauncher.default : BubLauncher where
  mounts := []
  env := []
  inherit_env := false
  unshare_user := false
  unshare_ipc := false
  unshare_pid := true
  unshare_net := true
  unshare_uts := true
  unshare_cgroups := true
  as_pid_1 := true
  new_session := true
  die_with_parent := true
  hostname := none
  uid := none
  gid := none

/-- From `src/sandbox.rs`: `pub enum X11Sandbox`. -/
inductive X11Sandbox where
  | DEFAULT
  | XEPHYR
  | XORG
  | XPRA
  | XVFB
deriving DecidableEq, Repr

/-- From `src/sandbox.rs`, `X11Sandbox::flag`. -/
def X11Sandbox.flag : X11Sandbox → String
  | .DEFAULT => "--x11"
  | .XEPHYR => "--x11=xephyr"
  | .XORG => "--x11=xorg"
  | .XPRA => "--x11-xpra"
  | .XVFB => "--x11-xvfb"

/-- From `src/sandbox.rs`: `pub struct FirejailLauncher`. -/
structure FirejailLauncher where
  firejail_exec : String
  whitelists : List String
  blacklists : List String
  profile : Option String
  private_tmp : Bool
  private_cache : Bool
  no3d : Bool
  nodbus : Bool
  nodvd : Bool
  nogroups : Bool
  nonewprivs : Bool
  noroot : Bool
  nosound : Bool
  novideo : Bool
  nou2f : Bool
  seccomp : Bool
  x11 : Option X11Sandbox

/-- From `src/sandbox.rs`, `FirejailLauncher::command`: the argument vector
passed to the firejail executable, built by sequential `cmd.arg` appends —
whitelist entries, then blacklist entries, then `--profile=<path>` when a
profile is set and `--noprofile` otherwise, then the optional X11 flag,
then each boolean capability flag (emitted only when the field is true) in
the order the source applies them. -/
def FirejailLauncher.command (l : FirejailLauncher) : List String :=
  let cmd : List String := []
  let cmd := l.whitelists.foldl (fun c x => c ++ ["--whitelist=" ++ x]) cmd
  let cmd := l.blacklists.foldl (fun c x => c ++ ["--blacklist=" ++ x]) cmd
  let cmd :=
    match l.profile with
    | some p => cmd ++ ["--profile=" ++ p]
    | none => cmd ++ ["--noprofile"]
  let cmd :=
    match l.x11 with
    | some x => cmd ++ [x.flag]
    | none => cmd
  let cmd := if l.private_tmp then cmd ++ ["--private-tmp"] else cmd
  let cmd := if l.private_cache then cmd ++ ["--private-cache"] else cmd
  let cmd := if l.no3d then cmd ++ ["--no3d"] else cmd
  let cmd := if l.nodbus then cmd ++ ["--nodbus"] else cmd
  let cmd := if l.nodvd then cmd ++ ["--nodvd"] else cmd
  let cmd := if l.nogroups then cmd ++ ["--nogroups"] else cmd
  let cmd := if l.nonewprivs then cmd ++ ["--nonewprivs"] else cmd
  let cmd := if l.noroot then cmd ++ ["--noroot"] else cmd
  let cmd := if l.nosound then cmd ++ ["--nosound"] else cmd
  let cmd := if l.novideo then cmd ++ ["--novideo"] else cmd
  let cmd := if l.nou2f then cmd ++ ["--nou2f"] else cmd
  let cmd := if l.seccomp then cmd ++ ["--seccomp"] else cmd
  cmd

/-- From `src/sandbox/nsjail.rs`: `pub enum NSMountType`. -/
inductive NSMountType where
  | BindMount : String → String → NSMountType
  | TmpFs : String → NSMountType
deriving DecidableEq, Repr

/-- From `src/sandbox/nsjail.rs`: `pub struct NSMount` (field `r#type`,
`readwrite`, `mandatory`, `noexec`). -/
structure NSMount where
  type : NSMountType
  readwrite : Bool
  mandatory : Bool
  noexec : Bool
deriving DecidableEq, Repr

/-- From `src/sandbox/nsjail.rs`, `NSMount::bind`: a bindmount that is
both readwrite and mandatory. -/
def NSMount.bind (src dest : String) : NSMount where
  type := .BindMount src dest
  readwrite := true
  mandatory := true
  noexec := false

/-- From `src/sandbox/nsjail.rs`, `NSMount::readonly`: `bind` with
`readwrite` set to `false`. -/
def NSMount.readonly (src dest : String) : NSMount :=
  { NSMount.bind src dest with readwrite := false }

/-- From `src/sandbox/nsjail.rs`, `NSMount::temp`. -/
def NSMount.temp (dest : String) : NSMount where
  type := .TmpFs dest
  readwrite := true
  mandatory := true
  noexec := false

/-- Rust's `Display` for `bool`, used by `write!("{}", b)`. -/
def boolText : Bool → String
  | true => "true"
  | false => "false"

/-- From `src/sandbox/nsjail.rs`, `NSMount::into_proto_text`: one protobuf
text-format `mount` block, terminated by a newline, exactly as the source's
sequence of `write!` calls renders it. -/
def NSMount.into_proto_text (m : NSMount) : String :=
  "mount \x7b " ++
  "rw: " ++ boolText m.readwrite ++ " " ++
  "mandatory: " ++ boolText m.mandatory ++ " " ++
  "noexec: " ++ boolText m.noexec ++ " " ++
  (match m.type with
   | .BindMount src dest =>
       "src: \"" ++ src ++ "\" " ++ "dst: \"" ++ dest ++ "\" " ++ "is_bind: true "
   | .TmpFs dest =>
       "dst: \"" ++ dest ++ "\" " ++ "fstype: \"tmpfs\" ") ++
  "\x7d\n"

/-- From `src/sandbox/nsjail.rs`: `pub struct NSSymlink`. -/
structure NSSymlink where
  src : String
  dest : String
deriving DecidableEq, Repr

/-- From `src/sandbox/nsjail.rs`, `NSSymlink::into_proto_text`. -/
def NSSymlink.into_proto_text (s : NSSymlink) : String :=
  "mount \x7b " ++
  "src: \"" ++ s.src ++ "\" " ++
  "dst: \"" ++ s.dest ++ "\" " ++
  "is_symlink: true " ++
  "\x7d\n"

/-- From `src/sandbox/nsjail.rs`: `pub enum NSEnvVar`. -/
inductive NSEnvVar where
  | Set : String → String → NSEnvVar
  | Keep : String → NSEnvVar
deriving DecidableEq, Repr

/-- From `src/sandbox/nsjail.rs`, `NSEnvVar::to_arg`: a `Keep` renders as
`--env NAME` (the backend copies the variable from its own environment), a
`Set` as `--env NAME=value`. -/
def NSEnvVar.to_arg : NSEnvVar → String × String
  | .Keep s => ("--env", s)
  | .Set k v => ("--env", k ++ "=" ++ v)

/-- From `src/sandbox/nsjail.rs`: `pub struct NSJail`. -/
structure NSJail where
  mounts : List NSMount
  links : List NSSymlink
  env : List NSEnvVar
  user : Nat
  group : Nat

/-- `OpenOptions::new().write(true).truncate(true).create(true)`: opening
the configuration file discards whatever content was there before.  The
prior content is threaded explicitly so that the truncation semantics is
part of the model rather than an assumption. -/
def openTruncate (_prior : Option String) : String := ""

/-- From `src/sandbox/nsjail.rs`, `NSJail::command`: produces the argument
vector for `/usr/bin/nsjail` and the content of the generated
`./jail.proto` file, by the source's sequence of `cmd.arg` and
`f.write_all` calls — `--config`/`--user`/`--group` args, mount blocks then
symlink blocks written to the (truncated) file, `--env` args, the fixed
trailing flags, and a final `--` separator. -/
def NSJail.command (j : NSJail) (prior : Option String) : List String × String :=
  let f := openTruncate prior
  let cmd : List String := []
  let cmd := cmd ++ ["--config", "./jail.proto"]
  let cmd := cmd ++ ["--user", toString j.user]
  let cmd := cmd ++ ["--group", toString j.group]
  let f := j.mounts.foldl (fun acc m => acc ++ m.into_proto_text) f
  let f := j.links.foldl (fun acc s => acc ++ s.into_proto_text) f
  let cmd := j.env.foldl (fun c e => c ++ [e.to_arg.1, e.to_arg.2]) cmd
  let cmd := cmd ++ ["--hostname", "vanilla"]
  let cmd := cmd ++ ["--disable_rlimits"]
  let cmd := cmd ++ ["--disable_no_new_privs"]
  let cmd := cmd ++ ["--keep_caps"]
  let cmd := cmd ++ ["--"]
  (cmd, f)

/-- From `src/sandbox/nsjail.rs`: `impl Default for NSJail`. -/
def NSJail.default : NSJail where
  mounts := []
  links := []
  env := []
  user := 1000
  group := 984

/-- From `src/reaper.rs`: `pub enum ReaperCommand { Execute { exec: String,
args: Vec<String>, env: Vec<EnvVar> } }`.  Parametric in the string
representation: the wire model instantiates `α := List Nat` (a Rust
`String` is its UTF-8 byte sequence), the behavioural model `α := String`. -/
inductive ReaperCommand (α : Type) where
  | Execute : α → List α → List (EnvVar α) → ReaperCommand α
deriving DecidableEq, Repr

/-- The process invocation the reaper performs: the executable, the
argument list, and the list of environment modifications applied to the
child via the `Command` builder (`.env`/`.env_clear` calls). -/
structure ChildInvocation where
  exec : String
  args : List String
  envOverrides : List (String × String)
deriving DecidableEq, Repr

/-- From `src/reaper.rs`, `main` after a successful decode: the match arm
`ReaperCommand::Execute { exec, args, .. }` discards the `env` field (the
`..` pattern) and runs `Command::new(exec).args(args).status()` — no
environment modification is applied to the child, which therefore inherits
the reaper's environment unchanged.  The resulting `ExitStatus` is the
value of the `match` expression, which is discarded by the trailing `;`;
`main` then returns `Ok(())`, so the reaper process exits with code 0.
The child's exit status is a parameter here to make its non-use explicit. -/
def reaperMain (c : ReaperCommand String) (childStatus : Nat) : ChildInvocation × Nat :=
  match c, childStatus with
  | .Execute exec args _env, _ => ({ exec := exec, args := args, envOverrides := [] }, 0)

/-! ## The bincode wire format

`ReaperCommand::dispatch` writes `bincode::serialize_into(writable, &self)`
and the reaper reads `bincode::deserialize_from(stdin)`.  bincode 1.x's
free functions use the legacy configuration: little-endian, fixed-width
integer encoding — an enum variant index is a `u32` (4 bytes), a sequence
or string length a `u64` (8 bytes), and a `String`'s payload is its UTF-8
bytes verbatim.  Bytes are modelled as `Nat`s; a written byte is always
`< 256` by construction (`% 256`), and payload bytes are copied verbatim,
so the roundtrip does not depend on a byte-range side condition. -/

/-- Little-endian 4-byte encoding of a `u32` value. -/
def writeU32 (n : Nat) : List Nat :=
  [n % 256, n / 256 % 256, n / 256 ^ 2 % 256, n / 256 ^ 3 % 256]

/-- Little-endian 8-byte encoding of a `u64` value. -/
def writeU64 (n : Nat) : List Nat :=
  [n % 256, n / 256 % 256, n / 256 ^ 2 % 256, n / 256 ^ 3 % 256,
   n / 256 ^ 4 % 256, n / 256 ^ 5 % 256, n / 256 ^ 6 % 256, n / 256 ^ 7 % 256]

/-- Read a little-endian `u32` from the head of the stream. -/
def readU32 : List Nat → Option (Nat × List Nat)
  | b0 :: b1 :: b2 :: b3 :: rest =>
      some (b0 + 256 * b1 + 256 ^ 2 * b2 + 256 ^ 3 * b3, rest)
  | _ => none

/-- Read a little-endian `u64` from the head of the stream. -/
def readU64 : List Nat → Option (Nat × List Nat)
  | b0 :: b1 :: b2 :: b3 :: b4 :: b5 :: b6 :: b7 :: rest =>
      some (b0 + 256 * b1 + 256 ^ 2 * b2 + 256 ^ 3 * b3 +
            256 ^ 4 * b4 + 256 ^ 5 * b5 + 256 ^ 6 * b6 + 256 ^ 7 * b7, rest)
  | _ => none

/-- bincode encoding of a byte string: `u64` length, then the bytes. -/
def writeBytes (s : List Nat) : List Nat := writeU64 s.length ++ s

/-- bincode decoding of a byte string. -/
def readBytes (l : List Nat) : Option (List Nat × List Nat) :=
  match readU64 l with
  | some (n, r) => if n ≤ r.length then some (r.take n, r.drop n) else none
  | none => none

/-- bincode encoding of a sequence: `u64` length, then the elements. -/
def writeSeq {α : Type} (w : α → List Nat) (xs : List α) : List Nat :=
  writeU64 xs.length ++ (xs.map w).flatten

/-- Decode `n` consecutive elements. -/
def readSeqAux {α : Type} (rd : List Nat → Option (α × List Nat)) :
    Nat → List Nat → Option (List α × List Nat)
  | 0, l => some ([], l)
  | n + 1, l =>
      match rd l with
      | some (x, l') =>
          match readSeqAux rd n l' with
          | some (xs, l'') => some (x :: xs, l'')
          | none => none
      | none => none

/-- bincode decoding of a sequence. -/
def readSeq {α : Type} (rd : List Nat → Option (α × List Nat)) (l : List Nat) :
    Option (List α × List Nat) :=
  match readU64 l with
  | some (n, r) => readSeqAux rd n r
  | none => none

/-- bincode encoding of an `EnvVar` (serde derive): `u32` variant index in
declaration order — `Pass` is 0, `KeyValue` is 1 — then the fields. -/
def writeEnvVar : EnvVar (List Nat) → List Nat
  | .Pass k => writeU32 0 ++ writeBytes k
  | .KeyValue k v => writeU32 1 ++ writeBytes k ++ writeBytes v

/-- bincode decoding of an `EnvVar`. -/
def readEnvVar (l : List Nat) : Option (EnvVar (List Nat) × List Nat) :=
  match readU32 l with
  | some (0, r) =>
      match readBytes r with
      | some (k, r') => some (.Pass k, r')
      | none => none
  | some (1, r) =>
      match readBytes r with
      | some (k, r') =>
          match readBytes r' with
          | some (v, r'') => some (.KeyValue k v, r'')
          | none => none
      | none => none
  | _ => none

/-- bincode encoding of a `ReaperCommand` as produced by
`ReaperCommand::dispatch` (`bincode::serialize_into`): `u32` variant index
0 for `Execute`, then `exec`, then `args`, then `env`. -/
def serializeReaperCommand : ReaperCommand (List Nat) → List Nat
  | .Execute exec args env =>
      writeU32 0 ++ writeBytes exec ++ writeSeq writeBytes args ++ writeSeq writeEnvVar env

/-- bincode decoding of a `ReaperCommand` as performed by the reaper's
`bincode::deserialize_from`. -/
def deserializeReaperCommand (l : List Nat) :
    Option (ReaperCommand (List Nat) × List Nat) :=
  match readU32 l with
  | some (0, r) =>
      match readBytes r with
      | some (exec, r') =>
          match readSeq readBytes r' with
          | some (args, r'') =>
              match readSeq readEnvVar r'' with
              | some (env, r''') => some (.Execute exec args env, r''')
              | none => none
          | none => none
      | none => none
  | _ => none

/-- A `u64` length field can represent the length: true of every real Rust
value (`usize` is at most 64 bits), stated explicitly since Lean's `Nat`
is unbounded. -/
def fitsU64 (n : Nat) : Bool := n < 2 ^ 64

/-- Wire wellformedness of an `EnvVar`: its strings' byte lengths fit in
the `u64` length fields. -/
def envVarWF : EnvVar (List Nat) → Bool
  | .Pass k => fitsU64 k.length
  | .KeyValue k v => fitsU64 k.length && fitsU64 v.length

/-- Wire wellformedness of a `ReaperCommand`: every string length and
sequence length fits in a `u64` length field. -/
def reaperCommandWF : ReaperCommand (List Nat) → Bool
  | .Execute exec args env =>
      fitsU64 exec.length && fitsU64 args.length &&
      args.all (fun a => fitsU64 a.length) &&
      fitsU64 env.length && env.all envVarWF

/-- Concatenation of a list of strings (the file content built by a
sequence of `write_all` calls). -/
def strConcat : List String → String
  | [] => ""
  | s :: rest => s ++ strConcat rest

/-! ## Helper lemmas -/

theorem foldl_append_flatten {α β : Type} (f : α → List β) (l : List α) (acc : List β) :
    l.foldl (fun c m => c ++ f m) acc = acc ++ (l.map f).flatten := by
  induction l generalizing acc with
  | nil => simp
  | cons x xs ih => simp [ih, List.append_assoc]

theorem foldl_append_str {α : Type} (f : α → String) (l : List α) (acc : String) :
    l.foldl (fun c m => c ++ f m) acc = acc ++ strConcat (l.map f) := by
  induction l generalizing acc with
  | nil => simp [strConcat, String.append_empty]
  | cons x xs ih => simp [strConcat, ih, String.append_assoc]

theorem readU32_writeU32 (n : Nat) (r : List Nat) (h : n < 2 ^ 32) :
    readU32 (writeU32 n ++ r) = some (n, r) := by
  simp only [writeU32, readU32, List.cons_append, List.nil_append]
  refine congrArg some (Prod.ext ?_ rfl)
  show n % 256 + 256 * (n / 256 % 256) + 256 ^ 2 * (n / 256 ^ 2 % 256) +
      256 ^ 3 * (n / 256 ^ 3 % 256) = n
  omega

theorem readU64_writeU64 (n : Nat) (r : List Nat) (h : n < 2 ^ 64) :
    readU64 (writeU64 n ++ r) = some (n, r) := by
  simp only [writeU64, readU64, List.cons_append, List.nil_append]
  refine congrArg some (Prod.ext ?_ rfl)
  show n % 256 + 256 * (n / 256 % 256) + 256 ^ 2 * (n / 256 ^ 2 % 256) +
      256 ^ 3 * (n / 256 ^ 3 % 256) + 256 ^ 4 * (n / 256 ^ 4 % 256) +
      256 ^ 5 * (n / 256 ^ 5 % 256) + 256 ^ 6 * (n / 256 ^ 6 % 256) +
      256 ^ 7 * (n / 256 ^ 7 % 256) = n
  omega

theorem readBytes_writeBytes (s : List Nat) (r : List Nat) (h : s.length < 2 ^ 64) :
    readBytes (writeBytes s ++ r) = some (s, r) := by
  simp only [writeBytes, List.append_assoc, readBytes,
    readU64_writeU64 s.length (s ++ r) h]
  rw [if_pos (by simp)]
  simp [List.take_left, List.drop_left]

theorem readSeqAux_flatten {α : Type} (rd : List Nat → Option (α × List Nat))
    (w : α → List Nat) (xs : List α) (r : List Nat)
    (h : ∀ x ∈ xs, ∀ t, rd (w x ++ t) = some (x, t)) :
    readSeqAux rd xs.length ((xs.map w).flatten ++ r) = some (xs, r) := by
  induction xs with
  | nil => simp [readSeqAux]
  | cons x xs ih =>
      have hx := h x (List.mem_cons_self x xs) ((xs.map w).flatten ++ r)
      simp only [List.map_cons, List.flatten_cons, List.length_cons, List.append_assoc]
      rw [readSeqAux, hx]
      simp [ih (fun y hy t => h y (List.mem_cons_of_mem x hy) t)]

theorem readSeq_writeSeq {α : Type} (rd : List Nat → Option (α × List Nat))
    (w : α → List Nat) (xs : List α) (r : List Nat) (hlen : xs.length < 2 ^ 64)
    (h : ∀ x ∈ xs, ∀ t, rd (w x ++ t) = some (x, t)) :
    readSeq rd (writeSeq w xs ++ r) = some (xs, r) := by
  simp only [writeSeq, List.append_assoc, readSeq,
    readU64_writeU64 xs.length ((xs.map w).flatten ++ r) hlen]
  exact readSeqAux_flatten rd w xs r h

theorem readEnvVar_writeEnvVar (e : EnvVar (List Nat)) (r : List Nat)
    (h : envVarWF e = true) :
    readEnvVar (writeEnvVar e ++ r) = some (e, r) := by
  cases e with
  | Pass k =>
      have hk : k.length < 2 ^ 64 := by
        simpa [envVarWF, fitsU64] using h
      simp only [writeEnvVar, List.append_assoc, readEnvVar,
        readU32_writeU32 0 (writeBytes k ++ r) (by norm_num),
        readBytes_writeBytes k r hk]
  | KeyValue k v =>
      have hk : k.length < 2 ^ 64 ∧ v.length < 2 ^ 64 := by
        simpa [envVarWF, fitsU64] using h
      simp only [writeEnvVar, List.append_assoc, readEnvVar,
        readU32_writeU32 1 (writeBytes k ++ (writeBytes v ++ r)) (by norm_num),
        readBytes_writeBytes k (writeBytes v ++ r) hk.1,
        readBytes_writeBytes v r hk.2]

/-! ## Claim theorems -/

/-- C4: For every `ReaperCommand::Execute` value (whose string and sequence
lengths fit the `u64` length fields, as every real Rust value's do),
encoding it with the host-side serializer (`ReaperCommand::dispatch`,
`bincode::serialize_into`) and decoding the resulting bytes with the
reaper-side deserializer (`bincode::deserialize_from`) yields exactly the
original value — executable path equal, argument sequence equal in order,
environment sequence equal in order with each entry's variant (pass-through
vs key-value) preserved — with no bytes left over. -/
theorem reaper_command_encode_decode_roundtrip (c : ReaperCommand (List Nat))
    (h : reaperCommandWF c = true) :
    deserializeReaperCommand (serializeReaperCommand c) = some (c, []) := by
  obtain ⟨exec, args, env⟩ := c
  simp only [reaperCommandWF, Bool.and_eq_true, List.all_eq_true, fitsU64,
    decide_eq_true_eq] at h
  obtain ⟨⟨⟨⟨hexec, hargs⟩, hargall⟩, henv⟩, henvall⟩ := h
  have hexec' : readBytes (writeBytes exec ++
      (writeSeq writeBytes args ++ (writeSeq writeEnvVar env ++ []))) =
      some (exec, writeSeq writeBytes args ++ (writeSeq writeEnvVar env ++ [])) :=
    readBytes_writeBytes exec _ hexec
  have hargs' : readSeq readBytes (writeSeq writeBytes args ++ (writeSeq writeEnvVar env ++ [])) =
      some (args, writeSeq writeEnvVar env ++ []) :=
    readSeq_writeSeq readBytes writeBytes args _ hargs
      (fun a ha t => readBytes_writeBytes a t (hargall a ha))
  have henv' : readSeq readEnvVar (writeSeq writeEnvVar env ++ []) =
      some (env, []) :=
    readSeq_writeSeq readEnvVar writeEnvVar env [] henv
      (fun e he t => readEnvVar_writeEnvVar e t (henvall e he))
  have h0 : readU32 (writeU32 0 ++ (writeBytes exec ++
      (writeSeq writeBytes args ++ (writeSeq writeEnvVar env ++ [])))) =
      some (0, writeBytes exec ++ (writeSeq writeBytes args ++ (writeSeq writeEnvVar env ++ []))) :=
    readU32_writeU32 0 _ (by norm_num)
  have hser : serializeReaperCommand (.Execute exec args env) =
      writeU32 0 ++ (writeBytes exec ++
        (writeSeq writeBytes args ++ (writeSeq writeEnvVar env ++ []))) := by
    simp [serializeReaperCommand, List.append_assoc]
  rw [hser]
  simp only [deserializeReaperCommand, h0, hexec', hargs', henv']

/-- Witness for C4 at a concrete command: `Execute` of a two-byte
executable path, one argument, and one entry of each `EnvVar` variant. -/
theorem reaper_command_encode_decode_roundtrip_witness :
    deserializeReaperCommand (serializeReaperCommand
      (.Execute [47, 98] [[45, 120]] [.Pass [72], .KeyValue [65] [66]])) =
      some (.Execute [47, 98] [[45, 120]] [.Pass [72], .KeyValue [65] [66]], []) :=
  reaper_command_encode_decode_roundtrip
    (.Execute [47, 98] [[45, 120]] [.Pass [72], .KeyValue [65] [66]]) (by decide)

/-- C1: the reaper's `main`, handed the decoded command
`Execute { exec = "/bin/false", args = [], env = [KeyValue "A" "B"] }`
whose child exits with status 1, spawns the child with NO environment
modification (the `env` field is discarded by the `..` pattern in the
`match`) and itself exits with code 0, not with the child's status 1 —
contradicting the claim that the environment actions are applied and that
the reaper exits with the program's exit status.  The executable and
argument list are passed through faithfully. -/
theorem reaper_drops_env_and_exit_status :
    reaperMain (.Execute "/bin/false" [] [.KeyValue "A" "B"]) 1 =
      ({ exec := "/bin/false", args := [], envOverrides := [] }, 0) ∧
    (reaperMain (.Execute "/bin/false" [] [.KeyValue "A" "B"]) 1).2 ≠ 1 := by
  exact ⟨rfl, by decide⟩

/-- C8: the `Default` instance of `BubLauncher` enables exactly the pid,
net, uts and cgroup namespace-isolation toggles plus run-as-pid-1,
new-session and die-with-parent, while user and ipc isolation default to
disabled. -/
theorem bubLauncher_default_toggles :
    BubLauncher.default.unshare_pid = true ∧
    BubLauncher.default.unshare_net = true ∧
    BubLauncher.default.unshare_uts = true ∧
    BubLauncher.default.unshare_cgroups = true ∧
    BubLauncher.default.as_pid_1 = true ∧
    BubLauncher.default.new_session = true ∧
    BubLauncher.default.die_with_parent = true ∧
    BubLauncher.default.unshare_user = false ∧
    BubLauncher.default.unshare_ipc = false := by
  repeat constructor

/-- C9: two `BubLauncher` configurations that differ only in the
`hostname`, `uid` and `gid` fields produce identical argument vectors:
`BubLauncher::command` stores but never reads these three fields. -/
theorem bub_command_ignores_hostname_uid_gid (l : BubLauncher) (henv : HostEnv)
    (h h' : Option String) (u u' g g' : Option Nat) :
    BubLauncher.command { l with hostname := h, uid := u, gid := g } henv =
      BubLauncher.command { l with hostname := h', uid := u', gid := g' } henv := rfl

/-- The generated `./jail.proto` content is the mount blocks in input
order followed by the symlink blocks in input order, independent of the
file's prior content (the file is opened with `truncate(true)`). -/
theorem nsjail_file_content (j : NSJail) (prior : Option String) :
    (j.command prior).2 =
      strConcat (j.mounts.map NSMount.into_proto_text) ++
      strConcat (j.links.map NSSymlink.into_proto_text) := by
  simp only [NSJail.command, openTruncate]
  rw [foldl_append_str, foldl_append_str]
  simp [String.empty_append, String.append_assoc]

/-- C7: every configured mount and symlink produces exactly one block in
the generated configuration file — the content is precisely the
concatenation of the mounts' blocks in input order followed by the
symlinks' blocks in input order — and re-running translation against a
file with arbitrary prior content at the same path truncates it: the
output is independent of the prior content. -/
theorem nsjail_config_one_block_per_mount_in_order_truncating
    (j : NSJail) (prior prior' : Option String) :
    (j.command prior).2 =
      strConcat (j.mounts.map NSMount.into_proto_text) ++
      strConcat (j.links.map NSSymlink.into_proto_text) ∧
    (j.command prior).2 = (j.command prior').2 := by
  refine ⟨nsjail_file_content j prior, ?_⟩
  rw [nsjail_file_content j prior, nsjail_file_content j prior']

/-- C10: every argument vector produced by `NSJail::command` consists of
the `--config`/`--user`/`--group` arguments and the `--env` pairs followed
by the fixed flags `--hostname vanilla`, `--disable_rlimits`,
`--disable_no_new_privs` and `--keep_caps`, with a trailing `--` separator
as the final argument. -/
theorem nsjail_args_fixed_flags_then_separator (j : NSJail) (prior : Option String) :
    (j.command prior).1 =
      (["--config", "./jail.proto", "--user", toString j.user,
        "--group", toString j.group] ++
        (j.env.map (fun e => [e.to_arg.1, e.to_arg.2])).flatten) ++
      ["--hostname", "vanilla", "--disable_rlimits", "--disable_no_new_privs",
       "--keep_caps", "--"] ∧
    (j.command prior).1.getLast? = some "--" := by
  have harg : (j.command prior).1 =
      (["--config", "./jail.proto", "--user", toString j.user,
        "--group", toString j.group] ++
        (j.env.map (fun e => [e.to_arg.1, e.to_arg.2])).flatten) ++
      ["--hostname", "vanilla", "--disable_rlimits", "--disable_no_new_privs",
       "--keep_caps", "--"] := by
    simp only [NSJail.command]
    rw [foldl_append_flatten]
    simp [List.append_assoc]
  refine ⟨harg, ?_⟩
  rw [harg]
  rw [show (["--hostname", "vanilla", "--disable_rlimits", "--disable_no_new_privs",
      "--keep_caps", "--"] : List String) =
      ["--hostname", "vanilla", "--disable_rlimits", "--disable_no_new_privs",
       "--keep_caps"] ++ ["--"] from rfl, ← List.append_assoc]
  exact List.getLast?_concat _

theorem ite_extend {α : Type} (b : Bool) (c add : List α) :
    (if b then c ++ add else c) = c ++ (if b then add else []) := by
  cases b <;> simp

theorem ite_skip {α : Type} (b : Bool) (c add : List α) :
    (if b then c else c ++ add) = c ++ (if b then [] else add) := by
  cases b <;> simp

/-- C5: when environment resolution succeeds (`kvs` the resolved pairs),
the bubblewrap argument vector is exactly: one flag group per mount in the
order the mounts were added, then — when `inherit_env` is false — the
`--clearenv` flag, then the `--setenv` triples in sequence order, then the
boolean flags.  In particular the clear-environment flag stands strictly
before every emitted `--setenv` group. -/
theorem bub_command_mounts_in_order_clearenv_before_setenv
    (l : BubLauncher) (henv : HostEnv) (kvs : List (String × String))
    (hres : l.env.mapM (EnvVar.to_key_value henv) = Except.ok kvs) :
    l.command henv = Except.ok (
      (l.mounts.map BubMount.apply_arg).flatten ++
      ((if l.inherit_env then [] else ["--clearenv"]) ++
      ((kvs.map (fun kv => ["--setenv", kv.1, kv.2])).flatten ++
      ((if l.unshare_user then ["--unshare-user"] else []) ++
      ((if l.unshare_ipc then ["--unshare-ipc"] else []) ++
      ((if l.unshare_pid then ["--unshare-pid"] else []) ++
      ((if l.unshare_net then ["--unshare-net"] else []) ++
      ((if l.unshare_uts then ["--unshare-uts"] else []) ++
      ((if l.unshare_cgroups then ["--unshare-cgroup"] else []) ++
      ((if l.as_pid_1 then ["--as-pid-1"] else []) ++
      ((if l.new_session then ["--new-session"] else []) ++
      (if l.die_with_parent then ["--die-with-parent"] else [])))))))))))) := by
  simp only [BubLauncher.command, hres, bind, Except.bind, pure, Except.pure,
    Except.ok.injEq]
  rw [ite_extend, ite_extend, ite_extend, ite_extend, ite_extend, ite_extend,
    ite_extend, ite_extend, ite_extend, ite_skip, foldl_append_flatten,
    foldl_append_flatten]
  simp only [List.nil_append, List.append_assoc]

/-- Witness for C5: a launcher with one read-only bind mount, one
key-value environment entry and `inherit_env = false` (the default)
yields the mount group, then `--clearenv`, then the `--setenv` group,
then the default boolean flags. -/
theorem bub_command_mounts_in_order_clearenv_before_setenv_witness :
    BubLauncher.command
      { BubLauncher.default with
          mounts := [.BindRO "/usr" "/usr"],
          env := [.KeyValue "WINEPREFIX" "/wineprefix"] }
      (fun _ => none) =
    Except.ok ["--ro-bind", "/usr", "/usr", "--clearenv",
      "--setenv", "WINEPREFIX", "/wineprefix",
      "--unshare-pid", "--unshare-net", "--unshare-uts", "--unshare-cgroup",
      "--as-pid-1", "--new-session", "--die-with-parent"] := by
  have h := bub_command_mounts_in_order_clearenv_before_setenv
    { BubLauncher.default with
        mounts := [.BindRO "/usr" "/usr"],
        env := [.KeyValue "WINEPREFIX" "/wineprefix"] }
    (fun _ => none) [("WINEPREFIX", "/wineprefix")] rfl
  simpa using h

theorem to_key_value_error_msg (henv : HostEnv) (e : EnvVar String) (msg : String)
    (h : EnvVar.to_key_value henv e = .error msg) : msg = "failed to get env var" := by
  cases e with
  | Pass k =>
      cases hk : henv k with
      | some v => simp [EnvVar.to_key_value, hk] at h
      | none =>
          simp only [EnvVar.to_key_value, hk, Except.error.injEq] at h
          exact h.symm
  | KeyValue k v => simp [EnvVar.to_key_value] at h

theorem mapM_to_key_value_missing (henv : HostEnv) (env : List (EnvVar String))
    (h : ∃ k, EnvVar.Pass k ∈ env ∧ henv k = none) :
    env.mapM (EnvVar.to_key_value henv) = Except.error "failed to get env var" := by
  induction env with
  | nil =>
      obtain ⟨k, hk, _⟩ := h
      cases hk
  | cons e rest ih =>
      obtain ⟨k, hk, hnone⟩ := h
      rcases List.mem_cons.mp hk with heq | hmem
      · rw [List.mapM_cons, ← heq]
        simp [EnvVar.to_key_value, hnone, bind, Except.bind]
      · rw [List.mapM_cons]
        cases he : EnvVar.to_key_value henv e with
        | error msg =>
            have hmsg := to_key_value_error_msg henv e msg he
            subst hmsg
            simp only [he, bind, Except.bind]
        | ok v =>
            have ihr := ih ⟨k, hmem, hnone⟩
            simp only [he, bind, Except.bind, ihr]

/-- C3 (counterexample): a configuration whose environment sequence is the
single pass-through `Pass "WINEDEBUG"`, translated against a host
environment not containing `WINEDEBUG`, aborts with the *panic*
`"failed to get env var"` — the `.expect` in `EnvVar::to_key_value`,
modelled as `Except.error` carrying the panic message.  No
`MissingHostVariable` error value exists anywhere in the code: the failure
is a crash, contradicting the claim's "fails with a MissingHostVariable
error (not a crash)". -/
theorem bub_missing_passthrough_is_panic_cex :
    BubLauncher.command
      { BubLauncher.default with env := [.Pass "WINEDEBUG"] } (fun _ => none) =
      Except.error "failed to get env var" := rfl

/-- C3 (amended): for every configuration whose environment sequence
contains a pass-through action whose name is absent from the host
environment at translation time, translation aborts by panicking (the
`expect` message `"failed to get env var"`, modelled as `Except.error`)
rather than returning a `MissingHostVariable` error value, and no process
invocation is produced. -/
theorem bub_missing_passthrough_aborts_translation
    (l : BubLauncher) (henv : HostEnv)
    (h : ∃ k, EnvVar.Pass k ∈ l.env ∧ henv k = none) :
    l.command henv = Except.error "failed to get env var" := by
  have hm := mapM_to_key_value_missing henv l.env h
  simp only [BubLauncher.command, hm, bind, Except.bind]

/-- Witness for C3 (amended): a sequence with a key-value entry followed
by a pass-through naming an absent variable aborts translation. -/
theorem bub_missing_passthrough_aborts_translation_witness :
    BubLauncher.command
      { BubLauncher.default with env := [.KeyValue "A" "B", .Pass "NO_SUCH_VAR"] }
      (fun _ => none) =
      Except.error "failed to get env var" :=
  bub_missing_passthrough_aborts_translation _ _
    ⟨"NO_SUCH_VAR", by simp, rfl⟩

theorem flatten_map_singleton {α β : Type} (f : α → β) (xs : List α) :
    (xs.map (fun x => [f x])).flatten = xs.map f := by
  induction xs with
  | nil => simp
  | cons x xs ih => simp [ih]

theorem noprofile_ne_profile_arg (p : String) :
    "--noprofile" ≠ "--profile=" ++ p := by
  intro h
  have hd := congrArg String.data h
  rw [String.data_append] at hd
  have h10 := congrArg (fun l => l.take 10) hd
  simp only [List.take_left' (show ("--profile=".data).length = 10 by decide)] at h10
  exact absurd h10 (by decide)

/-- C6: the firejail argument vector is, in this fixed sequence: all
whitelist entries, then all blacklist entries, then exactly one of
`--profile=<path>` (when a profile is configured) or `--noprofile` (never
both: the selection segment is a single flag, and `--noprofile` is never
equal to a `--profile=` flag), then the optional X11 flag, then the
boolean capability flags — each emitted only when enabled — in the
declared order; and the translator is deterministic: identical
configurations yield identical argument vectors. -/
theorem firejail_command_ordering_and_deterministic (l : FirejailLauncher) :
    (l.command =
      l.whitelists.map (fun x => "--whitelist=" ++ x) ++
      (l.blacklists.map (fun x => "--blacklist=" ++ x) ++
      ((match l.profile with
        | some p => ["--profile=" ++ p]
        | none => ["--noprofile"]) ++
      ((match l.x11 with
        | some x => [x.flag]
        | none => []) ++
      ((if l.private_tmp then ["--private-tmp"] else []) ++
      ((if l.private_cache then ["--private-cache"] else []) ++
      ((if l.no3d then ["--no3d"] else []) ++
      ((if l.nodbus then ["--nodbus"] else []) ++
      ((if l.nodvd then ["--nodvd"] else []) ++
      ((if l.nogroups then ["--nogroups"] else []) ++
      ((if l.nonewprivs then ["--nonewprivs"] else []) ++
      ((if l.noroot then ["--noroot"] else []) ++
      ((if l.nosound then ["--nosound"] else []) ++
      ((if l.novideo then ["--novideo"] else []) ++
      ((if l.nou2f then ["--nou2f"] else []) ++
      (if l.seccomp then ["--seccomp"] else [])))))))))))))))) ∧
    ((∃ p, l.profile = some p ∧
        (match l.profile with
         | some q => ["--profile=" ++ q]
         | none => ["--noprofile"]) = ["--profile=" ++ p] ∧
        "--noprofile" ∉ (["--profile=" ++ p] : List String)) ∨
      (l.profile = none ∧
        (match l.profile with
         | some q => ["--profile=" ++ q]
         | none => ["--noprofile"]) = ["--noprofile"])) ∧
    (∀ l' : FirejailLauncher, l = l' → l.command = l'.command) := by
  refine ⟨?_, ?_, ?_⟩
  · cases hp : l.profile with
    | some p =>
        cases hx : l.x11 with
        | some x =>
            simp only [FirejailLauncher.command, hp, hx]
            rw [ite_extend, ite_extend, ite_extend, ite_extend, ite_extend,
              ite_extend, ite_extend, ite_extend, ite_extend, ite_extend,
              ite_extend, ite_extend, foldl_append_flatten, foldl_append_flatten]
            simp only [flatten_map_singleton, List.nil_append, List.append_assoc]
        | none =>
            simp only [FirejailLauncher.command, hp, hx]
            rw [ite_extend, ite_extend, ite_extend, ite_extend, ite_extend,
              ite_extend, ite_extend, ite_extend, ite_extend, ite_extend,
              ite_extend, ite_extend, foldl_append_flatten, foldl_append_flatten]
            simp only [flatten_map_singleton, List.nil_append, List.append_assoc]
    | none =>
        cases hx : l.x11 with
        | some x =>
            simp only [FirejailLauncher.command, hp, hx]
            rw [ite_extend, ite_extend, ite_extend, ite_extend, ite_extend,
              ite_extend, ite_extend, ite_extend, ite_extend, ite_extend,
              ite_extend, ite_extend, foldl_append_flatten, foldl_append_flatten]
            simp only [flatten_map_singleton, List.nil_append, List.append_assoc]
        | none =>
            simp only [FirejailLauncher.command, hp, hx]
            rw [ite_extend, ite_extend, ite_extend, ite_extend, ite_extend,
              ite_extend, ite_extend, ite_extend, ite_extend, ite_extend,
              ite_extend, ite_extend, foldl_append_flatten, foldl_append_flatten]
            simp only [flatten_map_singleton, List.nil_append, List.append_assoc]
  · cases hp : l.profile with
    | some p =>
        exact Or.inl ⟨p, rfl, rfl, by
          simp only [List.mem_singleton]
          exact noprofile_ne_profile_arg p⟩
    | none => exact Or.inr ⟨rfl, rfl⟩
  · intro l' hll
    rw [hll]

/-! ## C2: no implicit process-info mount in the nsjail translator -/

/-- Number of newline characters in a string; each `into_proto_text` block
is newline-terminated, so for newline-free paths the number of blocks in
the generated file is its newline count. -/
def nlCount (s : String) : Nat := s.data.count '\n'

/-- A string free of newline characters. -/
def nlFreeStr (s : String) : Bool := !(s.data.contains '\n')

/-- The paths of a mount are newline-free. -/
def NSMountType.pathsNlFree : NSMountType → Bool
  | .BindMount src dest => nlFreeStr src && nlFreeStr dest
  | .TmpFs dest => nlFreeStr dest

/-- The paths of a symlink are newline-free. -/
def NSSymlink.pathsNlFree (s : NSSymlink) : Bool :=
  nlFreeStr s.src && nlFreeStr s.dest

theorem nlCount_append (a b : String) : nlCount (a ++ b) = nlCount a + nlCount b := by
  simp [nlCount, String.data_append, List.count_append]

theorem nlCount_of_nlFree (s : String) (h : nlFreeStr s = true) : nlCount s = 0 := by
  simp only [nlFreeStr, Bool.not_eq_true'] at h
  rw [List.contains, List.elem_eq_mem, decide_eq_false_iff_not] at h
  simp only [nlCount, List.count_eq_zero]
  exact h

theorem nlCount_boolText (b : Bool) : nlCount (boolText b) = 0 := by
  cases b <;> decide

theorem nlCount_mount_block (m : NSMount) (h : m.type.pathsNlFree = true) :
    nlCount m.into_proto_text = 1 := by
  cases htype : m.type with
  | BindMount src dest =>
      rw [htype] at h
      simp only [NSMountType.pathsNlFree, Bool.and_eq_true] at h
      have hs := nlCount_of_nlFree src h.1
      have hd := nlCount_of_nlFree dest h.2
      simp only [NSMount.into_proto_text, htype, nlCount_append, hs, hd,
        nlCount_boolText]
      decide
  | TmpFs dest =>
      rw [htype] at h
      simp only [NSMountType.pathsNlFree] at h
      have hd := nlCount_of_nlFree dest h
      simp only [NSMount.into_proto_text, htype, nlCount_append, hd,
        nlCount_boolText]
      decide

theorem nlCount_symlink_block (s : NSSymlink) (h : s.pathsNlFree = true) :
    nlCount s.into_proto_text = 1 := by
  simp only [NSSymlink.pathsNlFree, Bool.and_eq_true] at h
  have hs := nlCount_of_nlFree s.src h.1
  have hd := nlCount_of_nlFree s.dest h.2
  simp only [NSSymlink.into_proto_text, nlCount_append, hs, hd]
  decide

theorem nlCount_strConcat (xs : List String) :
    nlCount (strConcat xs) = (xs.map nlCount).sum := by
  induction xs with
  | nil => simp [strConcat, nlCount]
  | cons x xs ih => simp [strConcat, nlCount_append, ih]

theorem sum_map_eq_length {α : Type} (xs : List α) (f : α → Nat)
    (h : ∀ x ∈ xs, f x = 1) : (xs.map f).sum = xs.length := by
  induction xs with
  | nil => simp
  | cons x xs ih =>
      rw [List.map_cons, List.sum_cons, h x (List.mem_cons_self x xs),
        ih (fun y hy => h y (List.mem_cons_of_mem x hy)), List.length_cons]
      omega

/-- C2 (counterexample): `NSJail::command` never prepends a process-info
mount.  For the default configuration (no mounts) the generated
configuration file is empty — it contains no block at all, in particular
not a process-info mount as an implicit first mount — and for a
configuration with one bind mount, the file is exactly that bind mount's
block (`is_bind: true`, no `fstype: "proc"` block before it). -/
theorem nsjail_no_implicit_procfs_mount_cex :
    (NSJail.command NSJail.default none).2 = "" ∧
    (NSJail.command
        { NSJail.default with mounts := [NSMount.bind "/usr" "/usr"] } none).2 =
      "mount \x7b rw: true mandatory: true noexec: false src: \"/usr\" dst: \"/usr\" is_bind: true \x7d\n" :=
  ⟨rfl, rfl⟩

/-- C2 (amended): the syscall-jail translator adds no implicit mount of
any kind: for every configuration whose mount and symlink paths are free
of newline characters, the generated configuration file consists of
exactly `mounts.length + links.length` newline-terminated blocks — one per
configured mount or symlink — and nothing else; no process-info mount is
prepended. -/
theorem nsjail_adds_no_implicit_mount_block (j : NSJail) (prior : Option String)
    (hm : ∀ m ∈ j.mounts, m.type.pathsNlFree = true)
    (hl : ∀ s ∈ j.links, s.pathsNlFree = true) :
    nlCount (j.command prior).2 = j.mounts.length + j.links.length := by
  rw [nsjail_file_content, nlCount_append, nlCount_strConcat, nlCount_strConcat,
    List.map_map, List.map_map]
  simp only [Function.comp_def]
  rw [sum_map_eq_length _ _ (fun m hmem => nlCount_mount_block m (hm m hmem)),
    sum_map_eq_length _ _ (fun s hmem => nlCount_symlink_block s (hl s hmem))]

/-- Witness for C2 (amended): one bind mount and one symlink yield a
configuration file of exactly two blocks. -/
theorem nsjail_adds_no_implicit_mount_block_witness :
    nlCount (NSJail.command
      { NSJail.default with
          mounts := [NSMount.bind "/usr" "/usr"],
          links := [⟨"/usr/bin", "/bin"⟩] } none).2 = 1 + 1 :=
  nsjail_adds_no_implicit_mount_block _ none
    (by intro m hm; simp at hm; subst hm; decide)
    (by intro s hs; simp at hs; subst hs; decide)

end Cellar
